import Mathlib

/-!
Verification development for the revocation-record store and CRL assembly
pipeline of the cfssl fork (redis `certdb` backend).

The Go sources are shallowly embedded:

* `src/certdb/redis/accessor.go` — the key-value (redis) accessor.
* `src/certdb/db/db.go`          — the accessor factory.
* `src/cli/crl/crl.go`           — `generateCRL`, the CRL CLI pipeline.

Modelling conventions:

* `time.Time` is modelled as an absolute instant (`GoTime`): seconds since
  the epoch plus nanoseconds.  Locations/zones are not modelled; every
  comparison performed by the source (`time.Time.Before`) is instant-based,
  and `.UTC()` does not change the instant.
* `time.Now().UTC()` is passed to each operation as an explicit `now`
  parameter.
* A value the Go code places into a redis hash field (a
  `map[string]interface{}` entry) is modelled by `RVal`.  The standard
  library renderings are modelled by their information content: the string
  produced by `Format(time.RFC3339)` is `RVal.rfc3339 sec` (whole-second
  resolution), the string produced by `strconv.Itoa` is `RVal.decimal n`;
  `RVal.int` and `RVal.time` are the raw non-string Go values that
  `RevokeCertificate` and the OCSP insert path hand to the client.
* A redis hash is an association list `FieldMap`; the whole database is an
  association list `Store` (redis keys are unique).  `HMSet` merges the
  given fields into the hash at the key, creating it when absent; `HGetAll`
  of an absent key yields the empty map, and a missing field reads back as
  the empty string, as a Go `map[string]string` lookup does.
* Errors: the accessor wraps every failure through
  `cferr.Wrap(certStoreError, unknown, inner)` (`wrapError` in the source);
  this is `GoErr.certStore inner`.  A `NotFound` category exists in the
  error taxonomy of the spec but is never constructed by this code.
  Dereferencing a nil `*redis.Client` is the distinct outcome
  `ROut.panicked`.
-/

namespace Cfssl

/-- Model of Go `time.Time`: an absolute instant, seconds since the epoch
plus nanoseconds.  Locations are not modelled (see the module comment). -/
structure GoTime where
  sec : Int
  nsec : Nat
deriving DecidableEq, Repr

/-- Go `t.Before(u)`: `t` is strictly earlier than the instant `u`. -/
def GoTime.before (t u : GoTime) : Bool :=
  t.sec < u.sec || (t.sec == u.sec && t.nsec < u.nsec)

/-- Truncation of an instant to whole seconds — the resolution of the
RFC3339 encoding used by the codec. -/
def GoTime.truncSec (t : GoTime) : GoTime :=
  ⟨t.sec, 0⟩

/-- A value the Go source places into a redis hash field.  See the module
comment for the encoding conventions. -/
inductive RVal where
  | str (s : String)
  | decimal (n : Int)
  | rfc3339 (sec : Int)
  | int (n : Int)
  | time (t : GoTime)
deriving DecidableEq, Repr

/-- Whether the Go value placed into the field map is a string value (the
renderings `str`, `decimal`, `rfc3339` are Go strings) as opposed to a raw
`int` or `time.Time` handed to the client for backend-native encoding. -/
def RVal.isGoString : RVal → Bool
  | .str _ => true
  | .decimal _ => true
  | .rfc3339 _ => true
  | .int _ => false
  | .time _ => false

/-- The text obtained when a stored field value is read back as a Go string.
`str` and `decimal` contents are reproduced verbatim; the concrete RFC3339
text and the client's binary encoding of a raw time are not reconstructed
(an injective placeholder is used) — under the well-formed stores of the
theorems below the source only reads `str` fields as plain text. -/
def RVal.asString : RVal → String
  | .str s => s
  | .decimal n => toString n
  | .int n => toString n
  | .rfc3339 sec => "rfc3339<" ++ toString sec ++ ">"
  | .time t => "binary<" ++ toString t.sec ++ "." ++ toString t.nsec ++ ">"

/-- Model of `strconv.Atoi` applied to the string read back from a field:
on the rendering of `strconv.Itoa` (and on a raw Go int, which the client
persists in decimal notation) it recovers the integer; on an ordinary
string it parses the decimal text; a binary-encoded time never parses. -/
def goAtoi : RVal → Option Int
  | .decimal n => some n
  | .int n => some n
  | .str s => s.toInt?
  | .rfc3339 _ => none
  | .time _ => none

/-- Model of `time.Parse(time.RFC3339, ·)` applied to the string read back
from a field: it inverts `Format(time.RFC3339)` at whole-second resolution;
the client's binary encoding of a raw time, decimal text, and the ordinary
field strings arising in this development are not RFC3339 text. -/
def goParseRFC3339 : RVal → Option GoTime
  | .rfc3339 sec => some ⟨sec, 0⟩
  | .str _ => none
  | .decimal _ => none
  | .int _ => none
  | .time _ => none

/-- A redis hash: field name to value, unique field names. -/
abbrev FieldMap := List (String × RVal)

/-- `HSET` of one field: replace the first binding of the field, or append
the binding when the field is absent. -/
def FieldMap.hset : FieldMap → String → RVal → FieldMap
  | [], f, v => [(f, v)]
  | (g, w) :: rest, f, v =>
    if g == f then (f, v) :: rest else (g, w) :: FieldMap.hset rest f v

/-- `HMSET`: set each given field in turn (the source builds the update as a
Go map of pairwise-distinct fields, so the iteration order is immaterial;
the model uses the textual order of the source). -/
def FieldMap.hmset (m : FieldMap) (upd : List (String × RVal)) : FieldMap :=
  upd.foldl (fun acc p => FieldMap.hset acc p.1 p.2) m

/-- Reading one field of an `HGETALL` result: a missing field reads back as
the empty string, as a Go `map[string]string` lookup does. -/
def FieldMap.hget (m : FieldMap) (f : String) : RVal :=
  (m.lookup f).getD (.str "")

/-- The database: redis key to hash, unique keys. -/
abbrev Store := List (String × FieldMap)

/-- `HMSET` at a key: merge the fields into the hash stored at the key,
creating the hash when the key is absent. -/
def Store.hmsetKey : Store → String → List (String × RVal) → Store
  | [], k, upd => [(k, FieldMap.hmset [] upd)]
  | (k', m) :: rest, k, upd =>
    if k' == k then (k', m.hmset upd) :: rest
    else (k', m) :: Store.hmsetKey rest k upd

/-- `HGETALL`: the hash at the key, or the empty hash when absent. -/
def Store.hgetAll (s : Store) (k : String) : FieldMap :=
  (s.lookup k).getD []

/-- The glob `pre*` of the scan pattern: `pre` is a prefix of the key
(compared on the character sequences, so that equalities compute). -/
def strMatchesPre (pre s : String) : Bool :=
  pre.data.isPrefixOf s.data

/-- The keys produced by `SCAN 0 MATCH pre* COUNT 0`, in store order. -/
def Store.scanKeys (s : Store) (pre : String) : List String :=
  (s.filter (fun p => strMatchesPre pre p.1)).map (fun p => p.1)

/-! ## Field-name and key constants (src/certdb/redis/accessor.go) -/

def revokedStatus : String := "revoked"

def certKeyPre : String := "cert"

def ocspKeyPre : String := "ocsp"

def serialField : String := "serial_number"

def akiField : String := "authority_key_identifier"

def calabelField : String := "ca_label"

def statusField : String := "status"

def reasonField : String := "reason"

def expiryField : String := "expiry"

def revokedatField : String := "revoked_at"

def pemField : String := "pem"

def bodyField : String := "body"

/-- `certdb.CertificateRecord`. -/
structure CertificateRecord where
  serial : String
  aki : String
  caLabel : String
  status : String
  reason : Int
  expiry : GoTime
  revokedAt : GoTime
  pem : String
deriving DecidableEq, Repr

/-- `certdb.OCSPRecord`. -/
structure OCSPRecord where
  serial : String
  aki : String
  body : String
  expiry : GoTime
deriving DecidableEq, Repr

/-- A certificate record with its timestamps truncated to whole seconds —
what survives the RFC3339 encoding of the codec. -/
def CertificateRecord.truncSec (cr : CertificateRecord) : CertificateRecord :=
  { cr with expiry := cr.expiry.truncSec, revokedAt := cr.revokedAt.truncSec }

def certKeyFromCertRec (cr : CertificateRecord) : String :=
  certKeyPre ++ ":" ++ cr.serial ++ ":" ++ cr.aki

def certKeyFromSerialAKI (serial aki : String) : String :=
  certKeyPre ++ ":" ++ serial ++ ":" ++ aki

def ocspKeyFromOCSPRec (rr : OCSPRecord) : String :=
  ocspKeyPre ++ ":" ++ rr.serial ++ ":" ++ rr.aki

def ocspKeyFromSerialAKI (serial aki : String) : String :=
  ocspKeyPre ++ ":" ++ serial ++ ":" ++ aki

/-! ## Errors and operation outcomes -/

/-- The inner error wrapped by the accessor. -/
inductive ErrInner where
  | unknownDBObject
  | net
  | atoi
  | timeParse
  | invalidConfig
deriving DecidableEq, Repr

/-- The error values observable from this code.  `certStore i` is
`cferr.Wrap(CertStoreError, Unknown, i)` (the accessor's `wrapError`);
`certificateReadFailed` is the `cferr.Wrap(CertificateError, ReadFailed, ·)`
of `generateCRL`; `notFound` is the spec taxonomy's NotFound, never
constructed by this code; `external` is an error produced by an external
collaborator and propagated unmodified. -/
inductive GoErr where
  | certStore (inner : ErrInner)
  | certificateReadFailed
  | notFound
  | external (code : Nat)
deriving DecidableEq, Repr

/-- The redis client held by the accessor: the backing store plus whether
the backend is reachable over the network. -/
structure Client where
  reachable : Bool
  store : Store
deriving DecidableEq, Repr

/-- `redis.Accessor`: it holds a possibly-nil `*redis.Client`. -/
structure Accessor where
  db : Option Client
deriving DecidableEq, Repr

/-- Outcome of one accessor operation: a result together with the client
after the call, an error together with the client, or a Go panic (nil
client dereference).  Errors produced before any write leave the store
unchanged. -/
inductive ROut (α : Type) where
  | ok (a : α) (db : Option Client)
  | err (e : GoErr) (db : Option Client)
  | panicked
deriving DecidableEq, Repr

/-! ## The accessor operations (src/certdb/redis/accessor.go) -/

/-- `checkDB`: error when the held client is nil.  (This revision does not
ping the backend.) -/
def checkDB (a : Accessor) : Option GoErr :=
  match a.db with
  | none => some (.certStore .unknownDBObject)
  | some _ => none

/-- The field map built by `updateCertificateRecord`, in source order. -/
def certFieldsOf (cr : CertificateRecord) : List (String × RVal) :=
  [(serialField, .str cr.serial),
   (akiField, .str cr.aki),
   (calabelField, .str cr.caLabel),
   (statusField, .str cr.status),
   (reasonField, .decimal cr.reason),
   (expiryField, .rfc3339 cr.expiry.sec),
   (revokedatField, .rfc3339 cr.revokedAt.sec),
   (pemField, .str cr.pem)]

/-- `updateCertificateRecord`: `HMSET` the encoded record at its key.  An
unreachable backend surfaces as a wrapped network error. -/
def updateCertificateRecord (c : Client) (cr : CertificateRecord) : ROut Unit :=
  if c.reachable then
    .ok () (some { c with store := c.store.hmsetKey (certKeyFromCertRec cr) (certFieldsOf cr) })
  else
    .err (.certStore .net) (some c)

/-- `InsertCertificate`: `checkDB`, then replace-by-identity. -/
def InsertCertificate (a : Accessor) (cr : CertificateRecord) : ROut Unit :=
  match a.db with
  | none => .err (.certStore .unknownDBObject) none
  | some c => updateCertificateRecord c cr

/-- `GetCertificate`: `checkDB`, `HGETALL` of the key, then decode the
fields — `strconv.Atoi` on `reason` first, then `time.Parse(RFC3339)` on
`expiry` and `revoked_at`, each failure wrapped. -/
def GetCertificate (a : Accessor) (serial aki : String) : ROut (List CertificateRecord) :=
  match a.db with
  | none => .err (.certStore .unknownDBObject) none
  | some c =>
    if c.reachable then
      let m := c.store.hgetAll (certKeyFromSerialAKI serial aki)
      match goAtoi (m.hget reasonField) with
      | none => .err (.certStore .atoi) (some c)
      | some reason =>
        match goParseRFC3339 (m.hget expiryField) with
        | none => .err (.certStore .timeParse) (some c)
        | some expiry =>
          match goParseRFC3339 (m.hget revokedatField) with
          | none => .err (.certStore .timeParse) (some c)
          | some revat =>
            .ok [{ serial := (m.hget serialField).asString,
                   aki := (m.hget akiField).asString,
                   caLabel := (m.hget calabelField).asString,
                   status := (m.hget statusField).asString,
                   reason := reason,
                   expiry := expiry,
                   revokedAt := revat,
                   pem := (m.hget pemField).asString }] (some c)
    else .err (.certStore .net) (some c)

/-- `checkUnexpired`: `time.Now().UTC().Before(expiry)`, with the current
instant passed explicitly. -/
def checkUnexpired (now expiry : GoTime) : Bool :=
  now.before expiry

/-- `checkRevokedUnexpired`. -/
def checkRevokedUnexpired (status : String) (now expiry : GoTime) : Bool :=
  status == revokedStatus && checkUnexpired now expiry

/-- Decoding one scanned hash the way the filtering queries do: parse
`expiry`, then `revoked_at`, then `reason`; any failure corrupts the whole
scan. -/
def decodeCertRec (m : FieldMap) : Option CertificateRecord :=
  match goParseRFC3339 (m.hget expiryField) with
  | none => none
  | some expiry =>
    match goParseRFC3339 (m.hget revokedatField) with
    | none => none
    | some revat =>
      match goAtoi (m.hget reasonField) with
      | none => none
      | some reason =>
        some { serial := (m.hget serialField).asString,
               aki := (m.hget akiField).asString,
               caLabel := (m.hget calabelField).asString,
               status := (m.hget statusField).asString,
               reason := reason,
               expiry := expiry,
               revokedAt := revat,
               pem := (m.hget pemField).asString }

/-- The loop body of `GetRevokedAndUnexpiredCertificatesByLabel` over the
scanned keys: per key `HGETALL`, decode (aborting the whole call on the
first corrupt record, in the source's parse order), and keep the records
passing `checkRevokedUnexpired` whose `ca_label` equals the label. -/
def filterCertsByLabel (st : Store) (now : GoTime) (label : String) :
    List String → Except GoErr (List CertificateRecord)
  | [] => .ok []
  | k :: ks =>
    let m := st.hgetAll k
    match goParseRFC3339 (m.hget expiryField) with
    | none => .error (.certStore .timeParse)
    | some expiry =>
      match goParseRFC3339 (m.hget revokedatField) with
      | none => .error (.certStore .timeParse)
      | some revat =>
        match goAtoi (m.hget reasonField) with
        | none => .error (.certStore .atoi)
        | some reason =>
          match filterCertsByLabel st now label ks with
          | .error e => .error e
          | .ok rest =>
            if checkRevokedUnexpired ((m.hget statusField).asString) now expiry
                && (m.hget calabelField).asString == label then
              .ok ({ serial := (m.hget serialField).asString,
                     aki := (m.hget akiField).asString,
                     caLabel := (m.hget calabelField).asString,
                     status := (m.hget statusField).asString,
                     reason := reason,
                     expiry := expiry,
                     revokedAt := revat,
                     pem := (m.hget pemField).asString } :: rest)
            else .ok rest

/-- `GetRevokedAndUnexpiredCertificatesByLabel`: `checkDB`, scan the `cert:`
namespace, decode and filter client-side.  An unreachable backend fails the
scan with a wrapped network error; an empty result is not an error. -/
def GetRevokedAndUnexpiredCertificatesByLabel (a : Accessor) (now : GoTime) (label : String) :
    ROut (List CertificateRecord) :=
  match a.db with
  | none => .err (.certStore .unknownDBObject) none
  | some c =>
    if c.reachable then
      match filterCertsByLabel c.store now label (c.store.scanKeys (certKeyPre ++ ":")) with
      | .error e => .err e (some c)
      | .ok recs => .ok recs (some c)
    else .err (.certStore .net) (some c)

/-- The field map written by `RevokeCertificate`, in source order: the
status literal as a Go string, the reason code as a raw Go int, and
`time.Now().UTC()` as a raw Go `time.Time`. -/
def revokeFieldsOf (reasonCode : Int) (now : GoTime) : List (String × RVal) :=
  [(statusField, .str revokedStatus),
   (reasonField, .int reasonCode),
   (revokedatField, .time now)]

/-- `RevokeCertificate`: `checkDB`, then `HMSET` of the three revocation
fields at `cert:serial:aki` — unconditionally, whether or not a record
exists there. -/
def RevokeCertificate (a : Accessor) (serial aki : String) (reasonCode : Int) (now : GoTime) :
    ROut Unit :=
  match a.db with
  | none => .err (.certStore .unknownDBObject) none
  | some c =>
    if c.reachable then
      .ok () (some { c with
        store := c.store.hmsetKey (certKeyFromSerialAKI serial aki) (revokeFieldsOf reasonCode now) })
    else .err (.certStore .net) (some c)

/-- The field map written by `updateOCSPRecord`, in source order: the
expiry is the raw Go `time.Time`, not a rendered string. -/
def ocspRecFieldsOf (rr : OCSPRecord) : List (String × RVal) :=
  [(serialField, .str rr.serial),
   (akiField, .str rr.aki),
   (bodyField, .str rr.body),
   (expiryField, .time rr.expiry)]

/-- `updateOCSPRecord`. -/
def updateOCSPRecord (c : Client) (rr : OCSPRecord) : ROut Unit :=
  if c.reachable then
    .ok () (some { c with store := c.store.hmsetKey (ocspKeyFromOCSPRec rr) (ocspRecFieldsOf rr) })
  else
    .err (.certStore .net) (some c)

/-- `InsertOCSP`: `checkDB`, then `updateOCSPRecord` — whose error the
source discards (`a.updateOCSPRecord(&rr)` with the result ignored),
returning nil regardless. -/
def InsertOCSP (a : Accessor) (rr : OCSPRecord) : ROut Unit :=
  match a.db with
  | none => .err (.certStore .unknownDBObject) none
  | some c =>
    match updateOCSPRecord c rr with
    | .ok _ db => .ok () db
    | .err _ db => .ok () db
    | .panicked => .panicked

/-- The field map written by `UpdateOCSP`, in source order: this path does
render the expiry, `expiry.UTC().Format(time.RFC3339)`. -/
def updateOCSPFieldsOf (serial aki body : String) (expiry : GoTime) : List (String × RVal) :=
  [(serialField, .str serial),
   (akiField, .str aki),
   (bodyField, .str body),
   (expiryField, .rfc3339 expiry.sec)]

/-- `UpdateOCSP`: the one accessor operation of this revision with no
`checkDB` — the client is dereferenced directly, so a nil client panics. -/
def UpdateOCSP (a : Accessor) (serial aki body : String) (expiry : GoTime) : ROut Unit :=
  match a.db with
  | none => .panicked
  | some c =>
    if c.reachable then
      .ok () (some { c with
        store := c.store.hmsetKey (ocspKeyFromSerialAKI serial aki)
          (updateOCSPFieldsOf serial aki body expiry) })
    else .err (.certStore .net) (some c)

/-- `UpsertOCSP`: `checkDB`, then delegate to `UpdateOCSP`. -/
def UpsertOCSP (a : Accessor) (serial aki body : String) (expiry : GoTime) : ROut Unit :=
  match a.db with
  | none => .err (.certStore .unknownDBObject) none
  | some _ => UpdateOCSP a serial aki body expiry

/-! ## The accessor factory (src/certdb/db/db.go) -/

/-- `dbconf.DBConfig`. -/
structure DBConfig where
  driverName : String
  dataSourceName : String
deriving DecidableEq, Repr

/-- Which concrete backend the factory constructed. -/
inductive AccessorKind where
  | redisKind
  | sqlKind
deriving DecidableEq, Repr

/-- The externally observable construction steps of the factory; the trace
witnesses whether the backend kind was inspected and which backend
constructor ran. -/
inductive FactoryEv where
  | driverInspected (d : String)
  | redisAccessorNew (dsn : String)
  | sqlOpened (driver dsn : String)
deriving DecidableEq, Repr

/-- Outcomes of the factory's external collaborators: `redis.NewAccessor`
(which can fail parsing the URL) and `sqlx.Open`. -/
structure FactoryEnv where
  redisNew : String → Except GoErr Unit
  sqlOpen : String → String → Except GoErr Unit

/-- `db.NewAccessor` (src/certdb/db/db.go): a nil configuration is detected
and reported — wrapped around `dbconf.ErrInvalidConfig` — before the driver
name is inspected; otherwise the driver name selects the redis or the
relational backend. -/
def NewAccessor (cfg? : Option DBConfig) (env : FactoryEnv) :
    Except GoErr AccessorKind × List FactoryEv :=
  match cfg? with
  | none => (.error (.certStore .invalidConfig), [])
  | some cfg =>
    if cfg.driverName == "redis" then
      match env.redisNew cfg.dataSourceName with
      | .error e => (.error e, [.driverInspected cfg.driverName, .redisAccessorNew cfg.dataSourceName])
      | .ok _ => (.ok .redisKind, [.driverInspected cfg.driverName, .redisAccessorNew cfg.dataSourceName])
    else
      match env.sqlOpen cfg.driverName cfg.dataSourceName with
      | .error e =>
        (.error e, [.driverInspected cfg.driverName, .sqlOpened cfg.driverName cfg.dataSourceName])
      | .ok _ =>
        (.ok .sqlKind, [.driverInspected cfg.driverName, .sqlOpened cfg.driverName cfg.dataSourceName])

/-! ## The CRL pipeline (src/cli/crl/crl.go) -/

/-- The slice of `cli.Config` read by `generateCRL`. -/
structure CLIConfig where
  caFile : String
  caKeyFile : String
  dbConfigFile : String
  crlExpiration : Int
deriving DecidableEq, Repr

/-- The externally observable steps of `generateCRL`, in the order the
source performs them; `loadDBConfig`, `newAccessorCall` and `queryStore`
are the store-facing ones. -/
inductive CRLEv where
  | loadDBConfig
  | newAccessorCall
  | readCAFile
  | readCAKeyFile
  | parseCert
  | parseKey
  | queryStore
  | buildCRL
deriving DecidableEq, Repr

/-- Outcomes of the external collaborators of `generateCRL`; certificates,
keys and byte blobs are consumed as handles. -/
structure CRLEnv where
  loadFile : String → Except GoErr DBConfig
  newAccessor : DBConfig → Except GoErr Unit
  readBytes : String → Except GoErr String
  parseCertificatePEM : String → Except GoErr Nat
  caPassword : String
  parsePrivateKeyPEMWithPassword : String → Option String → Except GoErr Nat
  getRevokedAndUnexpired : Except GoErr (List CertificateRecord)
  newCRLFromDB : List CertificateRecord → Nat → Nat → Int → Except GoErr String

/-- `generateCRL` (src/cli/crl/crl.go).  The result is the pair of named Go
returns `(crlBytes, err)` together with the trace of external steps.  An
empty CA certificate path or CA key path logs an error and takes the bare
`return` — both named returns still nil — before any external step runs;
only the CA key read failure is wrapped (`CertificateError, ReadFailed`),
every other failure is propagated unmodified. -/
def generateCRL (c : CLIConfig) (env : CRLEnv) :
    (Option String × Option GoErr) × List CRLEv :=
  if c.caFile = "" then ((none, none), [])
  else if c.caKeyFile = "" then ((none, none), [])
  else
    match env.loadFile c.dbConfigFile with
    | .error e => ((none, some e), [.loadDBConfig])
    | .ok cfg =>
      match env.newAccessor cfg with
      | .error e => ((none, some e), [.loadDBConfig, .newAccessorCall])
      | .ok _ =>
        match env.readBytes c.caFile with
        | .error e => ((none, some e), [.loadDBConfig, .newAccessorCall, .readCAFile])
        | .ok ca =>
          match env.readBytes c.caKeyFile with
          | .error _ =>
            ((none, some .certificateReadFailed),
             [.loadDBConfig, .newAccessorCall, .readCAFile, .readCAKeyFile])
          | .ok cakey =>
            match env.parseCertificatePEM ca with
            | .error e =>
              ((none, some e),
               [.loadDBConfig, .newAccessorCall, .readCAFile, .readCAKeyFile, .parseCert])
            | .ok issuerCert =>
              let password := if env.caPassword = "" then none else some env.caPassword
              match env.parsePrivateKeyPEMWithPassword cakey password with
              | .error e =>
                ((none, some e),
                 [.loadDBConfig, .newAccessorCall, .readCAFile, .readCAKeyFile, .parseCert,
                  .parseKey])
              | .ok key =>
                match env.getRevokedAndUnexpired with
                | .error e =>
                  ((none, some e),
                   [.loadDBConfig, .newAccessorCall, .readCAFile, .readCAKeyFile, .parseCert,
                    .parseKey, .queryStore])
                | .ok certs =>
                  match env.newCRLFromDB certs issuerCert key c.crlExpiration with
                  | .error e =>
                    ((none, some e),
                     [.loadDBConfig, .newAccessorCall, .readCAFile, .readCAKeyFile, .parseCert,
                      .parseKey, .queryStore, .buildCRL])
                  | .ok req =>
                    ((some req, none),
                     [.loadDBConfig, .newAccessorCall, .readCAFile, .readCAKeyFile, .parseCert,
                      .parseKey, .queryStore, .buildCRL])

/-! ## Spec-side definitions and concrete instances used by the theorems -/

/-- The certificate records stored in the `cert:` namespace, as the
accessor's scanning queries decode them (one per scanned key). -/
def Store.certRecords (st : Store) : List CertificateRecord :=
  (st.scanKeys (certKeyPre ++ ":")).filterMap (fun k => decodeCertRec (st.hgetAll k))

/-- The filter of the claim, written from the spec's words: status is
`revoked`, the expiry is strictly after `now`, and the CA label matches. -/
def specRevokedUnexpiredLabeled (now : GoTime) (label : String) (r : CertificateRecord) : Bool :=
  (r.status == revokedStatus && now.before r.expiry) && r.caLabel == label

/-- Every hash in the `cert:` namespace decodes — no corrupt record. -/
def Store.certWellFormed (st : Store) : Bool :=
  (st.scanKeys (certKeyPre ++ ":")).all (fun k => (decodeCertRec (st.hgetAll k)).isSome)

/-- A concrete two-record store: a revoked, unexpired certificate labelled
"A" and one labelled "B". -/
def twoLabelClient : Client :=
  ⟨true,
   [("cert:1:2",
     [(serialField, .str "1"), (akiField, .str "2"), (calabelField, .str "A"),
      (statusField, .str "revoked"), (reasonField, .decimal 0),
      (expiryField, .rfc3339 100), (revokedatField, .rfc3339 50), (pemField, .str "p1")]),
    ("cert:3:4",
     [(serialField, .str "3"), (akiField, .str "4"), (calabelField, .str "B"),
      (statusField, .str "revoked"), (reasonField, .decimal 1),
      (expiryField, .rfc3339 200), (revokedatField, .rfc3339 60), (pemField, .str "p2")])]⟩

/-- A concrete environment for exercising `generateCRL`; every external
collaborator fails, so any external step taken would be visible in the
result. -/
def cexCRLEnv : CRLEnv :=
  { loadFile := fun _ => .error (.external 0),
    newAccessor := fun _ => .error (.external 1),
    readBytes := fun _ => .error (.external 2),
    parseCertificatePEM := fun _ => .error (.external 3),
    caPassword := "",
    parsePrivateKeyPEMWithPassword := fun _ _ => .error (.external 4),
    getRevokedAndUnexpired := .error (.external 5),
    newCRLFromDB := fun _ _ _ _ => .error (.external 6) }

/-! ## Store lemmas -/

theorem FieldMap.hget_nil (f : String) : FieldMap.hget [] f = .str "" := rfl

theorem FieldMap.hget_hset (m : FieldMap) (f : String) (v : RVal) (g : String) :
    (m.hset f v).hget g = if g = f then v else m.hget g := by
  induction m with
  | nil =>
    by_cases h : g = f <;>
      simp [FieldMap.hset, FieldMap.hget, List.lookup, beq_eq_decide, h]
  | cons p rest ih =>
    obtain ⟨a, w⟩ := p
    by_cases haf : a = f
    · subst haf
      by_cases hg : g = a <;>
        simp [FieldMap.hset, FieldMap.hget, List.lookup, beq_eq_decide, hg]
    · by_cases hg : g = a
      · subst hg
        have hgf : ¬g = f := haf
        simp [FieldMap.hset, FieldMap.hget, List.lookup, beq_eq_decide, hgf, haf]
      · have hfa : ¬f = a := fun hh => haf hh.symm
        by_cases hgf : g = f <;>
          simpa [FieldMap.hset, FieldMap.hget, List.lookup, beq_eq_decide, haf, hfa, hg, hgf]
            using ih

theorem Store.hgetAll_nil (k : String) : Store.hgetAll [] k = [] := rfl

theorem Store.hgetAll_hmsetKey_self (s : Store) (k : String) (upd : List (String × RVal)) :
    (s.hmsetKey k upd).hgetAll k = (s.hgetAll k).hmset upd := by
  induction s with
  | nil => simp [Store.hmsetKey, Store.hgetAll, List.lookup, beq_eq_decide]
  | cons p rest ih =>
    obtain ⟨k', m⟩ := p
    by_cases h : k' = k
    · subst h
      simp [Store.hmsetKey, Store.hgetAll, List.lookup, beq_eq_decide]
    · have h' : ¬k = k' := fun hh => h hh.symm
      simpa [Store.hmsetKey, Store.hgetAll, List.lookup, beq_eq_decide, h, h'] using ih

theorem Store.hgetAll_hmsetKey_ne (s : Store) (k : String) (upd : List (String × RVal))
    (k' : String) (h : k' ≠ k) :
    (s.hmsetKey k upd).hgetAll k' = s.hgetAll k' := by
  induction s with
  | nil => simp [Store.hmsetKey, Store.hgetAll, List.lookup, beq_eq_decide, h]
  | cons p rest ih =>
    obtain ⟨a, m⟩ := p
    by_cases hak : a = k
    · subst hak
      simp [Store.hmsetKey, Store.hgetAll, List.lookup, beq_eq_decide, h]
    · by_cases hka : k' = a
      · simp [Store.hmsetKey, Store.hgetAll, List.lookup, beq_eq_decide, hak, hka]
      · simpa [Store.hmsetKey, Store.hgetAll, List.lookup, beq_eq_decide, hak, hka] using ih

theorem Store.hmsetKey_absent (s : Store) (k : String) (upd : List (String × RVal))
    (h : s.lookup k = none) :
    s.hmsetKey k upd = s ++ [(k, FieldMap.hmset [] upd)] := by
  induction s with
  | nil => simp [Store.hmsetKey]
  | cons p rest ih =>
    obtain ⟨a, m⟩ := p
    by_cases hak : a = k
    · subst hak
      simp [List.lookup, beq_eq_decide] at h
    · have hka : ¬k = a := fun hh => hak hh.symm
      have hstep : List.lookup k ((a, m) :: rest) = List.lookup k rest := by
        simp [List.lookup, beq_eq_decide, hka]
      rw [hstep] at h
      simp [Store.hmsetKey, beq_eq_decide, hak, ih h]

/-! ## Values read back from the field maps each write path produces -/

theorem hget_hmset_certFields (m : FieldMap) (cr : CertificateRecord) :
    ((m.hmset (certFieldsOf cr)).hget reasonField = .decimal cr.reason) ∧
    ((m.hmset (certFieldsOf cr)).hget expiryField = .rfc3339 cr.expiry.sec) ∧
    ((m.hmset (certFieldsOf cr)).hget revokedatField = .rfc3339 cr.revokedAt.sec) ∧
    ((m.hmset (certFieldsOf cr)).hget serialField = .str cr.serial) ∧
    ((m.hmset (certFieldsOf cr)).hget akiField = .str cr.aki) ∧
    ((m.hmset (certFieldsOf cr)).hget calabelField = .str cr.caLabel) ∧
    ((m.hmset (certFieldsOf cr)).hget statusField = .str cr.status) ∧
    ((m.hmset (certFieldsOf cr)).hget pemField = .str cr.pem) := by
  simp +decide [certFieldsOf, FieldMap.hmset, FieldMap.hget_hset, serialField, akiField,
    calabelField, statusField, reasonField, expiryField, revokedatField, pemField]

theorem hget_hmset_revokeFields (m : FieldMap) (rc : Int) (now : GoTime) :
    ((m.hmset (revokeFieldsOf rc now)).hget statusField = .str revokedStatus) ∧
    ((m.hmset (revokeFieldsOf rc now)).hget reasonField = .int rc) ∧
    ((m.hmset (revokeFieldsOf rc now)).hget revokedatField = .time now) := by
  simp +decide [revokeFieldsOf, FieldMap.hmset, FieldMap.hget_hset, statusField, reasonField,
    revokedatField]

theorem hget_hmset_revokeFields_frame (m : FieldMap) (rc : Int) (now : GoTime) (f : String)
    (h1 : f ≠ statusField) (h2 : f ≠ reasonField) (h3 : f ≠ revokedatField) :
    (m.hmset (revokeFieldsOf rc now)).hget f = m.hget f := by
  simp [revokeFieldsOf, FieldMap.hmset, FieldMap.hget_hset, h1, h2, h3]

theorem hget_hmset_ocspRecFields (m : FieldMap) (rr : OCSPRecord) :
    (m.hmset (ocspRecFieldsOf rr)).hget expiryField = .time rr.expiry := by
  simp +decide [ocspRecFieldsOf, FieldMap.hmset, FieldMap.hget_hset, serialField, akiField,
    bodyField, expiryField]

theorem hget_hmset_updateOCSPFields (m : FieldMap) (serial aki body : String) (t : GoTime) :
    (m.hmset (updateOCSPFieldsOf serial aki body t)).hget expiryField = .rfc3339 t.sec := by
  simp +decide [updateOCSPFieldsOf, FieldMap.hmset, FieldMap.hget_hset, serialField, akiField,
    bodyField, expiryField]

/-! ## The claims -/

/-- Claim C7: the unexpired predicate used by every filtering query,
`checkUnexpired`, is a total function of the expiry timestamp (total by
construction in this embedding of `time.Now().UTC().Before(expiry)`), and
it returns `true` exactly when the expiry is strictly after the current
UTC instant. -/
theorem checkUnexpired_total_correct (now e : GoTime) :
    checkUnexpired now e = true ↔
      now.sec < e.sec ∨ (now.sec = e.sec ∧ now.nsec < e.nsec) := by
  simp [checkUnexpired, GoTime.before]

/-- Claim C9 (code bug): `UpdateOCSP` performs no availability check at
all — with a nil client it panics (nil `*redis.Client` dereference) instead
of failing with the uniformly wrapped store error that every sibling
operation (here `UpsertOCSP`, its thin wrapper) returns before touching any
stored data. -/
theorem UpdateOCSP_skips_checkDB :
    UpdateOCSP ⟨none⟩ "1" "1" "body" ⟨0, 0⟩ = .panicked ∧
    UpsertOCSP ⟨none⟩ "1" "1" "body" ⟨0, 0⟩ = .err (.certStore .unknownDBObject) none :=
  ⟨rfl, rfl⟩

/-- Claim C10: for a nil configuration, `db.NewAccessor` returns an error
— the wrapped `dbconf.ErrInvalidConfig` — and its event trace is empty:
the nil case is reported before the backend kind is inspected and before
any backend constructor runs. -/
theorem NewAccessor_nilConfig_error (env : FactoryEnv) :
    NewAccessor none env = (.error (.certStore .invalidConfig), []) := rfl

/-- Claim C1 (counterexample): with an empty CA certificate path,
`generateCRL` returns a nil error together with nil CRL bytes — it does
not fail with a `ConfigurationError` — although indeed no external step
(in particular no store access) occurs. -/
theorem generateCRL_emptyCA_nilError_cex :
    generateCRL ⟨"", "key.pem", "db.json", 0⟩ cexCRLEnv = ((none, none), []) := rfl

/-- Claim C1 (amended): for every configuration in which the CA certificate
file path or the CA key file path is empty, `generateCRL` logs the problem
and returns immediately with nil CRL bytes and a nil error — it does not
return a `ConfigurationError` — and performs no external step at all: no
database-configuration load, no accessor construction and no store query. -/
theorem generateCRL_emptyCA_returnsNilNil (c : CLIConfig) (env : CRLEnv)
    (h : c.caFile = "" ∨ c.caKeyFile = "") :
    generateCRL c env = ((none, none), []) := by
  rcases h with h | h
  · simp [generateCRL, h]
  · by_cases h0 : c.caFile = "" <;> simp [generateCRL, h0, h]

theorem generateCRL_emptyCA_returnsNilNil_witness :
    ((⟨"", "key.pem", "db.json", 0⟩ : CLIConfig).caFile = "" ∨
      (⟨"", "key.pem", "db.json", 0⟩ : CLIConfig).caKeyFile = "") ∧
    generateCRL ⟨"", "key.pem", "db.json", 0⟩ cexCRLEnv = ((none, none), []) :=
  ⟨Or.inl rfl, generateCRL_emptyCA_returnsNilNil ⟨"", "key.pem", "db.json", 0⟩ cexCRLEnv
    (Or.inl rfl)⟩

/-- Claim C2 (counterexample): on the empty store, revoking the absent
identity `("1", "2")` succeeds — no `NotFound` error — and creates a
partial record under `cert:1:2` holding exactly the three revocation
fields. -/
theorem RevokeCertificate_absent_creates_cex :
    RevokeCertificate ⟨some ⟨true, []⟩⟩ "1" "2" 0 ⟨0, 0⟩ =
      .ok () (some ⟨true,
        [("cert:1:2",
          [(statusField, .str revokedStatus), (reasonField, .int 0),
           (revokedatField, .time ⟨0, 0⟩)])]⟩) := by
  decide

/-- Claim C2 (amended): `RevokeCertificate` never fails with `NotFound`:
for every serial, aki and reason code whose identity is absent from the
store, it succeeds and blindly writes the fields `status`, `reason` and
`revoked_at` under `cert:serial:aki`, creating a new partial record with
exactly those three fields; the rest of the store is carried over
unchanged. -/
theorem RevokeCertificate_absent_partialCreate (c : Client) (serial aki : String)
    (rc : Int) (now : GoTime) (h : c.reachable = true)
    (habs : c.store.lookup (certKeyFromSerialAKI serial aki) = none) :
    RevokeCertificate ⟨some c⟩ serial aki rc now =
      .ok () (some ⟨true, c.store ++
        [(certKeyFromSerialAKI serial aki,
          [(statusField, .str revokedStatus), (reasonField, .int rc),
           (revokedatField, .time now)])]⟩) := by
  have hm : FieldMap.hmset [] (revokeFieldsOf rc now) =
      [(statusField, .str revokedStatus), (reasonField, .int rc),
       (revokedatField, .time now)] := by
    simp +decide [revokeFieldsOf, FieldMap.hmset, FieldMap.hset, statusField, reasonField,
      revokedatField]
  simp [RevokeCertificate, h, Store.hmsetKey_absent c.store _ _ habs, hm]

theorem RevokeCertificate_absent_partialCreate_witness :
    ((⟨true, []⟩ : Client).reachable = true ∧
      (⟨true, []⟩ : Client).store.lookup (certKeyFromSerialAKI "9" "8") = none) ∧
    RevokeCertificate ⟨some ⟨true, []⟩⟩ "9" "8" 3 ⟨7, 0⟩ =
      .ok () (some ⟨true,
        [(certKeyFromSerialAKI "9" "8",
          [(statusField, .str revokedStatus), (reasonField, .int 3),
           (revokedatField, .time ⟨7, 0⟩)])]⟩) :=
  ⟨⟨rfl, rfl⟩, RevokeCertificate_absent_partialCreate ⟨true, []⟩ "9" "8" 3 ⟨7, 0⟩ rfl rfl⟩

/-- Claim C4 (counterexample): `getCertificate("999","999")` on the empty
store does fail, but with the accessor's wrapped `CertStoreError` (the
`strconv.Atoi` failure on the empty `reason` field of the absent hash) —
not with a `NotFound` error. -/
theorem GetCertificate_missing_notFound_cex :
    GetCertificate ⟨some ⟨true, []⟩⟩ "999" "999" =
      .err (.certStore .atoi) (some ⟨true, []⟩) ∧
    GoErr.certStore .atoi ≠ GoErr.notFound := by
  refine ⟨?_, by decide⟩
  decide

/-- Claim C4 (amended): for every serial and aki whose identity is absent
from the store (in particular on an empty store), `GetCertificate` fails —
but with the wrapped `CertStoreError` produced by decoding the empty field
map (`strconv.Atoi` of the empty `reason` string), not with `NotFound`,
which this accessor never constructs. -/
theorem GetCertificate_missing_wrappedError (c : Client) (serial aki : String)
    (h : c.reachable = true)
    (habs : c.store.lookup (certKeyFromSerialAKI serial aki) = none) :
    GetCertificate ⟨some c⟩ serial aki = .err (.certStore .atoi) (some c) := by
  have hempty : c.store.hgetAll (certKeyFromSerialAKI serial aki) = [] := by
    simp [Store.hgetAll, habs]
  have hatoi : goAtoi (FieldMap.hget [] reasonField) = none := by decide
  simp [GetCertificate, h, hempty, hatoi]

theorem GetCertificate_missing_wrappedError_witness :
    ((⟨true, []⟩ : Client).reachable = true ∧
      (⟨true, []⟩ : Client).store.lookup (certKeyFromSerialAKI "999" "999") = none) ∧
    GetCertificate ⟨some ⟨true, []⟩⟩ "999" "999" =
      .err (.certStore .atoi) (some ⟨true, []⟩) :=
  ⟨⟨rfl, rfl⟩, GetCertificate_missing_wrappedError ⟨true, []⟩ "999" "999" rfl rfl⟩

/-- Claim C5 (counterexample): `RevokeCertificate` hands its timestamp to
the backend as a raw Go `time.Time` — not an RFC3339 string — and its
reason code as a raw Go int — not a decimal string: on the empty store,
revoking `("1","2")` with reason 5 persists `revoked_at = time ⟨100, 7⟩`
and `reason = int 5`, neither of which is a Go string value. -/
theorem RevokeCertificate_rawEncodings_cex :
    RevokeCertificate ⟨some ⟨true, []⟩⟩ "1" "2" 5 ⟨100, 7⟩ =
      .ok () (some ⟨true,
        [("cert:1:2",
          [(statusField, .str revokedStatus), (reasonField, .int 5),
           (revokedatField, .time ⟨100, 7⟩)])]⟩) ∧
    RVal.isGoString (.time ⟨100, 7⟩) = false ∧
    RVal.isGoString (.int 5) = false := by
  refine ⟨?_, rfl, rfl⟩
  decide

/-- Claim C5 (amended): of the key-value write operations,
`InsertCertificate` persists both timestamps as RFC3339 strings and the
reason as a decimal string, and `UpdateOCSP` persists its expiry as an
RFC3339 string; but `RevokeCertificate` hands `revoked_at` to the client
as a raw `time.Time` and `reason` as a raw int, and `InsertOCSP` hands its
expiry as a raw `time.Time`, rather than encoding them as strings. -/
theorem persisted_field_encodings (c : Client) (cr : CertificateRecord) (rr : OCSPRecord)
    (serial aki body : String) (t now : GoTime) (rc : Int) (h : c.reachable = true) :
    (∃ st₁, InsertCertificate ⟨some c⟩ cr = .ok () (some ⟨true, st₁⟩) ∧
      (st₁.hgetAll (certKeyFromCertRec cr)).hget expiryField = .rfc3339 cr.expiry.sec ∧
      (st₁.hgetAll (certKeyFromCertRec cr)).hget revokedatField = .rfc3339 cr.revokedAt.sec ∧
      (st₁.hgetAll (certKeyFromCertRec cr)).hget reasonField = .decimal cr.reason) ∧
    (∃ st₂, UpdateOCSP ⟨some c⟩ serial aki body t = .ok () (some ⟨true, st₂⟩) ∧
      (st₂.hgetAll (ocspKeyFromSerialAKI serial aki)).hget expiryField = .rfc3339 t.sec) ∧
    (∃ st₃, RevokeCertificate ⟨some c⟩ serial aki rc now = .ok () (some ⟨true, st₃⟩) ∧
      (st₃.hgetAll (certKeyFromSerialAKI serial aki)).hget revokedatField = .time now ∧
      (st₃.hgetAll (certKeyFromSerialAKI serial aki)).hget reasonField = .int rc) ∧
    (∃ st₄, InsertOCSP ⟨some c⟩ rr = .ok () (some ⟨true, st₄⟩) ∧
      (st₄.hgetAll (ocspKeyFromOCSPRec rr)).hget expiryField = .time rr.expiry) := by
  refine ⟨⟨c.store.hmsetKey (certKeyFromCertRec cr) (certFieldsOf cr), ?_, ?_, ?_, ?_⟩,
    ⟨c.store.hmsetKey (ocspKeyFromSerialAKI serial aki)
        (updateOCSPFieldsOf serial aki body t), ?_, ?_⟩,
    ⟨c.store.hmsetKey (certKeyFromSerialAKI serial aki) (revokeFieldsOf rc now), ?_, ?_, ?_⟩,
    ⟨c.store.hmsetKey (ocspKeyFromOCSPRec rr) (ocspRecFieldsOf rr), ?_, ?_⟩⟩
  · simp [InsertCertificate, updateCertificateRecord, h]
  · rw [Store.hgetAll_hmsetKey_self]
    exact (hget_hmset_certFields _ cr).2.1
  · rw [Store.hgetAll_hmsetKey_self]
    exact (hget_hmset_certFields _ cr).2.2.1
  · rw [Store.hgetAll_hmsetKey_self]
    exact (hget_hmset_certFields _ cr).1
  · simp [UpdateOCSP, h]
  · rw [Store.hgetAll_hmsetKey_self]
    exact hget_hmset_updateOCSPFields _ serial aki body t
  · simp [RevokeCertificate, h]
  · rw [Store.hgetAll_hmsetKey_self]
    exact (hget_hmset_revokeFields _ rc now).2.2
  · rw [Store.hgetAll_hmsetKey_self]
    exact (hget_hmset_revokeFields _ rc now).2.1
  · simp [InsertOCSP, updateOCSPRecord, h]
  · rw [Store.hgetAll_hmsetKey_self]
    exact hget_hmset_ocspRecFields _ rr

theorem persisted_field_encodings_witness :
    (⟨true, []⟩ : Client).reachable = true ∧
    (∃ st₃, RevokeCertificate ⟨some ⟨true, []⟩⟩ "1" "2" 5 ⟨100, 7⟩ =
        .ok () (some ⟨true, st₃⟩) ∧
      (st₃.hgetAll (certKeyFromSerialAKI "1" "2")).hget revokedatField = .time ⟨100, 7⟩ ∧
      (st₃.hgetAll (certKeyFromSerialAKI "1" "2")).hget reasonField = .int 5) :=
  ⟨rfl, (persisted_field_encodings ⟨true, []⟩
    ⟨"1", "2", "", "good", 0, ⟨0, 0⟩, ⟨0, 0⟩, ""⟩
    ⟨"1", "2", "", ⟨0, 0⟩⟩ "1" "2" "b" ⟨0, 0⟩ ⟨100, 7⟩ 5 rfl).2.2.1⟩

/-- Claim C6: storing a certificate record with `InsertCertificate` and
reading it back with `GetCertificate` on its `(serial, aki)` identity
reproduces every field of the record, with the two timestamps truncated to
whole seconds — the resolution of the RFC3339 codec. -/
theorem insert_get_roundtrip (c : Client) (cr : CertificateRecord) (h : c.reachable = true) :
    ∃ c', InsertCertificate ⟨some c⟩ cr = .ok () (some c') ∧
      GetCertificate ⟨some c'⟩ cr.serial cr.aki = .ok [cr.truncSec] (some c') := by
  refine ⟨{ c with store := c.store.hmsetKey (certKeyFromCertRec cr) (certFieldsOf cr) },
    ?_, ?_⟩
  · simp [InsertCertificate, updateCertificateRecord, h]
  · have hkey : certKeyFromSerialAKI cr.serial cr.aki = certKeyFromCertRec cr := rfl
    have hm := Store.hgetAll_hmsetKey_self c.store (certKeyFromCertRec cr) (certFieldsOf cr)
    obtain ⟨hr, he, hv, hs, ha, hl, ht, hp⟩ :=
      hget_hmset_certFields (c.store.hgetAll (certKeyFromCertRec cr)) cr
    simp [GetCertificate, h, hkey, hm, hr, he, hv, hs, ha, hl, ht, hp, goAtoi,
      goParseRFC3339, RVal.asString, CertificateRecord.truncSec, GoTime.truncSec]

theorem insert_get_roundtrip_witness :
    (⟨true, []⟩ : Client).reachable = true ∧
    ∃ c', InsertCertificate ⟨some ⟨true, []⟩⟩ ⟨"1", "2", "A", "good", 3, ⟨100, 9⟩, ⟨50, 4⟩, "p"⟩ =
        .ok () (some c') ∧
      GetCertificate ⟨some c'⟩ "1" "2" =
        .ok [CertificateRecord.truncSec ⟨"1", "2", "A", "good", 3, ⟨100, 9⟩, ⟨50, 4⟩, "p"⟩]
          (some c') :=
  ⟨rfl, insert_get_roundtrip ⟨true, []⟩ ⟨"1", "2", "A", "good", 3, ⟨100, 9⟩, ⟨50, 4⟩, "p"⟩ rfl⟩

/-- Claim C8: a successful `RevokeCertificate` on an existing record
changes only the three revocation fields of the hash at `cert:serial:aki`
— `status` to the revoked literal, `reason` to the reason code,
`revoked_at` to the current instant — while every other field of that hash
(`serial_number`, `authority_key_identifier`, `ca_label`, `expiry`, `pem`)
and every other key of the store are unchanged. -/
theorem RevokeCertificate_frame (c : Client) (serial aki : String) (rc : Int) (now : GoTime)
    (h : c.reachable = true)
    (hex : (c.store.lookup (certKeyFromSerialAKI serial aki)).isSome = true) :
    ∃ st', RevokeCertificate ⟨some c⟩ serial aki rc now = .ok () (some ⟨true, st'⟩) ∧
      (st'.hgetAll (certKeyFromSerialAKI serial aki)).hget statusField = .str revokedStatus ∧
      (st'.hgetAll (certKeyFromSerialAKI serial aki)).hget reasonField = .int rc ∧
      (st'.hgetAll (certKeyFromSerialAKI serial aki)).hget revokedatField = .time now ∧
      (∀ f, f ≠ statusField → f ≠ reasonField → f ≠ revokedatField →
        (st'.hgetAll (certKeyFromSerialAKI serial aki)).hget f =
          (c.store.hgetAll (certKeyFromSerialAKI serial aki)).hget f) ∧
      (∀ k, k ≠ certKeyFromSerialAKI serial aki → st'.hgetAll k = c.store.hgetAll k) := by
  refine ⟨c.store.hmsetKey (certKeyFromSerialAKI serial aki) (revokeFieldsOf rc now),
    ?_, ?_, ?_, ?_, ?_, ?_⟩
  · simp [RevokeCertificate, h]
  · rw [Store.hgetAll_hmsetKey_self]
    exact (hget_hmset_revokeFields _ rc now).1
  · rw [Store.hgetAll_hmsetKey_self]
    exact (hget_hmset_revokeFields _ rc now).2.1
  · rw [Store.hgetAll_hmsetKey_self]
    exact (hget_hmset_revokeFields _ rc now).2.2
  · intro f h1 h2 h3
    rw [Store.hgetAll_hmsetKey_self]
    exact hget_hmset_revokeFields_frame _ rc now f h1 h2 h3
  · intro k hk
    exact Store.hgetAll_hmsetKey_ne c.store _ _ k hk

theorem RevokeCertificate_frame_witness :
    (twoLabelClient.reachable = true ∧
      (twoLabelClient.store.lookup (certKeyFromSerialAKI "1" "2")).isSome = true) ∧
    ∃ st', RevokeCertificate ⟨some twoLabelClient⟩ "1" "2" 4 ⟨77, 0⟩ =
        .ok () (some ⟨true, st'⟩) ∧
      (st'.hgetAll (certKeyFromSerialAKI "1" "2")).hget statusField = .str revokedStatus ∧
      (st'.hgetAll (certKeyFromSerialAKI "1" "2")).hget reasonField = .int 4 ∧
      (st'.hgetAll (certKeyFromSerialAKI "1" "2")).hget revokedatField = .time ⟨77, 0⟩ ∧
      (∀ f, f ≠ statusField → f ≠ reasonField → f ≠ revokedatField →
        (st'.hgetAll (certKeyFromSerialAKI "1" "2")).hget f =
          (twoLabelClient.store.hgetAll (certKeyFromSerialAKI "1" "2")).hget f) ∧
      (∀ k, k ≠ certKeyFromSerialAKI "1" "2" →
        st'.hgetAll k = twoLabelClient.store.hgetAll k) :=
  ⟨⟨rfl, by decide⟩, RevokeCertificate_frame twoLabelClient "1" "2" 4 ⟨77, 0⟩ rfl (by decide)⟩

theorem filterCertsByLabel_exact (st : Store) (now : GoTime) (label : String) :
    ∀ ks : List String, (∀ k ∈ ks, (decodeCertRec (st.hgetAll k)).isSome = true) →
      filterCertsByLabel st now label ks =
        .ok ((ks.filterMap (fun k => decodeCertRec (st.hgetAll k))).filter
          (specRevokedUnexpiredLabeled now label)) := by
  intro ks
  induction ks with
  | nil => intro _; rfl
  | cons k ks ih =>
    intro h
    have hk := h k (List.mem_cons_self k ks)
    have hks : ∀ k' ∈ ks, (decodeCertRec (st.hgetAll k')).isSome = true :=
      fun k' hk' => h k' (List.mem_cons_of_mem k hk')
    cases hexp : goParseRFC3339 ((st.hgetAll k).hget expiryField) with
    | none => simp [decodeCertRec, hexp] at hk
    | some expiry =>
      cases hrev : goParseRFC3339 ((st.hgetAll k).hget revokedatField) with
      | none => simp [decodeCertRec, hexp, hrev] at hk
      | some revat =>
        cases hreas : goAtoi ((st.hgetAll k).hget reasonField) with
        | none => simp [decodeCertRec, hexp, hrev, hreas] at hk
        | some reason =>
          simp only [filterCertsByLabel, hexp, hrev, hreas, ih hks, decodeCertRec,
            List.filterMap_cons, List.filter_cons, specRevokedUnexpiredLabeled,
            checkRevokedUnexpired, checkUnexpired]
          by_cases hcond : (((st.hgetAll k).hget statusField).asString == revokedStatus
              && now.before expiry)
              && ((st.hgetAll k).hget calabelField).asString == label
          · simp [hcond]
          · simp [hcond]

/-- Claim C3: for every well-formed stored state (every hash in the `cert:`
namespace decodes) and every label,
`GetRevokedAndUnexpiredCertificatesByLabel` returns, without error, exactly
the stored records whose status is `revoked`, whose expiry is strictly
after `now`, and whose `ca_label` equals the label — no record with a
different label is included, and the result is the (possibly empty)
filtered list itself, so an empty result is returned without error when
nothing matches. -/
theorem GetRevokedAndUnexpiredCertificatesByLabel_exact (c : Client) (now : GoTime)
    (label : String) (h : c.reachable = true) (hwf : c.store.certWellFormed = true) :
    GetRevokedAndUnexpiredCertificatesByLabel ⟨some c⟩ now label =
      .ok ((c.store.certRecords).filter (specRevokedUnexpiredLabeled now label)) (some c) := by
  have hks : ∀ k ∈ c.store.scanKeys (certKeyPre ++ ":"),
      (decodeCertRec (c.store.hgetAll k)).isSome = true := by
    simpa [Store.certWellFormed, List.all_eq_true] using hwf
  simp [GetRevokedAndUnexpiredCertificatesByLabel, h,
    filterCertsByLabel_exact c.store now label _ hks, Store.certRecords]

theorem GetRevokedAndUnexpiredCertificatesByLabel_exact_witness :
    (twoLabelClient.reachable = true ∧ twoLabelClient.store.certWellFormed = true) ∧
    GetRevokedAndUnexpiredCertificatesByLabel ⟨some twoLabelClient⟩ ⟨0, 0⟩ "A" =
      .ok ((twoLabelClient.store.certRecords).filter
        (specRevokedUnexpiredLabeled ⟨0, 0⟩ "A")) (some twoLabelClient) :=
  ⟨⟨rfl, by decide⟩,
    GetRevokedAndUnexpiredCertificatesByLabel_exact twoLabelClient ⟨0, 0⟩ "A" rfl (by decide)⟩

end Cfssl
